import Mathlib

/-!
Verification development for the gofetch HTTP client library.

Shallow embedding of the middleware chain, the size / retry / rate-limit
middlewares, the request builder, the client Do path, the async layer and
response streaming, together with theorems settling the specification
claims about them.

Go machine integers are modelled as `Int` (no claim exercises overflow),
Go float64 time arithmetic as `Rat` (no claim exercises rounding), and Go
errors as the inductive `GError` mirroring the error types defined by the
library plus the standard-library errors the code matches on.
-/

namespace GoFetch

/-- Errors, mirroring the error types of the library (RetryError,
TimeoutError, SizeError, RateLimitExceededError, RequestError,
TransportError, ResponseError, the panic-recovery error of the async
layer) plus the ambient Go errors the code branches on: net.Error
(with its Timeout classification), context cancellation, io.EOF and
plain fmt errors. -/
inductive GError where
  /-- a net.Error; the flag records whether Timeout() reports true -/
  | netError (timeout : Bool) (msg : String)
  /-- a plain error value (fmt.Errorf and the like) -/
  | simpleError (msg : String)
  /-- context.Canceled -/
  | ctxCanceled
  /-- context.DeadlineExceeded -/
  | ctxDeadlineExceeded
  /-- middlewares.RetryError with Attempts and LastErr -/
  | retryError (attempts : Nat) (last : GError)
  /-- middlewares.TimeoutError wrapping its cause -/
  | timeoutError (cause : GError)
  /-- middlewares.SizeError with Type, Current and Max -/
  | sizeError (sizeType : String) (current : Int) (max : Int)
  /-- middlewares.RateLimitExceededError with Limit and RetryAfter (seconds) -/
  | rateLimitExceeded (limit : Rat) (retryAfter : Rat)
  /-- gofetch.RequestError tagging phase "request" around a cause -/
  | requestError (op : String) (cause : GError)
  /-- gofetch.TransportError tagging phase "transport" around a cause -/
  | transportError (op : String) (cause : GError)
  /-- gofetch.ResponseError tagging phase "response" around a cause -/
  | responseError (op : String) (cause : GError)
  /-- the error produced by the async panic-recovery handler -/
  | panicError (msg : String)
  /-- fmt.Errorf with a %w verb: a message wrapping a cause -/
  | wrapErr (msg : String) (cause : GError)
  /-- artifact of the embedding: marks exhaustion of the fuel that bounds
  the retry loop; never produced under the fuel bounds used in theorems -/
  | outOfFuel
  deriving DecidableEq, Repr

namespace GError

/-- errors.As with a *net.Error target: follows Unwrap chains exactly as the
Error-interface implementations in the source define them and returns the
fields (Timeout() flag, message) of the net.Error found, if any. -/
def findNetError : GError → Option (Bool × String)
  | netError t m => some (t, m)
  | retryError _ last => findNetError last
  | timeoutError c => findNetError c
  | requestError _ c => findNetError c
  | transportError _ c => findNetError c
  | responseError _ c => findNetError c
  | wrapErr _ c => findNetError c
  | _ => none

end GError

/-! Section: HTTP model shared by the middlewares

net/http Header is map[string][]string; we model it as an association list
with the Set / Add / Get(all values) operations used by the code. -/

/-- net/http header map: canonical-key to value-list associations. -/
abbrev HeaderMap := List (String × List String)

/-- http.Header.Set: replaces the values of the key by the single value. -/
def headerSet (m : HeaderMap) (k v : String) : HeaderMap :=
  match m with
  | [] => [(k, [v])]
  | (k', vs) :: rest =>
    if k' = k then (k, [v]) :: rest else (k', vs) :: headerSet rest k v

/-- http.Header.Add: appends the value to the values of the key. -/
def headerAdd (m : HeaderMap) (k v : String) : HeaderMap :=
  match m with
  | [] => [(k, [v])]
  | (k', vs) :: rest =>
    if k' = k then (k, vs ++ [v]) :: rest else (k', vs) :: headerAdd rest k v

/-- http.Header.Values: all values stored under the key. -/
def headerValues (m : HeaderMap) (k : String) : List String :=
  match m with
  | [] => []
  | (k', vs) :: rest => if k' = k then vs else headerValues rest k

/-- Body of a request or response as the middlewares see it: either a plain
io.Reader over known bytes, or that reader wrapped by the counting
sizeLimitedReader of the size middleware (maxSize and sizeType as in the
source). -/
inductive MWBody where
  | reader (data : List Nat)
  | limited (inner : MWBody) (maxSize : Int) (sizeType : String)
  deriving DecidableEq, Repr

/-- The bytes a full drain of the body yields (io.Copy of the reader). -/
def MWBody.bytes : MWBody → List Nat
  | reader data => data
  | limited inner _ _ => inner.bytes

/-- An *http.Request as the middlewares see it: method, URL, header map,
declared ContentLength, optional Body, and the error state of the attached
context (none while the context is live). -/
structure MWRequest where
  method : String
  urlStr : String
  headers : HeaderMap
  contentLength : Int
  body : Option MWBody
  ctxErr : Option GError
  deriving DecidableEq, Repr

/-- An *http.Response as the middlewares see it. -/
structure MWResponse where
  status : String
  statusCode : Int
  headers : HeaderMap
  contentLength : Int
  body : Option MWBody
  deriving DecidableEq, Repr

/-- The (resp, err) pair a Go RoundTrip returns; either side may be nil. -/
abbrev MWResult := Option MWResponse × Option GError

/-- core.RoundTripFunc. -/
abbrev RoundTripFn := MWRequest → MWResult

/-! Section: Middleware chain (middlewares/base.go) -/

/-- middlewares.ConfigurableMiddleware: an identifier name together with the
round-trip wrapper (options are opaque to the chain and not needed here). -/
structure ConfigurableMiddleware where
  name : String
  wrap : RoundTripFn → RoundTripFn

/-- middlewares.ChainMiddlewares: the loop
for i := len(mws)-1 down to 0 do wrapped = mws[i].Wrap(wrapped)
applied to the final round trip, written as structural recursion on the
list (the loop computes exactly this right fold). -/
def ChainMiddlewares (final : RoundTripFn) : List ConfigurableMiddleware → RoundTripFn
  | [] => final
  | m :: rest => m.wrap (ChainMiddlewares final rest)

/-! Instrument middlewares and terminal used to observe the order of
request-side and response-side effects through the chain, in the manner of
the middleware-composition tests (each appends its tag to a header). -/

/-- A middleware that adds tag `t` to the X-Mw request header (Header.Add)
before calling inward. -/
def reqTagMW (t : String) : ConfigurableMiddleware :=
  ⟨"req-tag", fun next req => next { req with headers := headerAdd req.headers "X-Mw" t }⟩

/-- A middleware that adds tag `t` to the X-Mw-Post response header after
the inner call returns a response. -/
def respTagMW (t : String) : ConfigurableMiddleware :=
  ⟨"resp-tag", fun next req =>
    match next req with
    | (some resp, e) =>
      (some { resp with headers := headerAdd resp.headers "X-Mw-Post" t }, e)
    | other => other⟩

/-- A terminal that records the X-Mw values it observed on the request into
the X-Mw-Seen header of its response. -/
def obsTerminal : RoundTripFn := fun req =>
  (some { status := "200 OK", statusCode := 200,
          headers := [("X-Mw-Seen", headerValues req.headers "X-Mw")],
          contentLength := 0, body := none }, none)

/-! Section: Size middleware (middlewares/sizelimit.go) -/

/-- core.SizeConfig. -/
structure SizeConfig where
  maxRequestBodySize : Int
  maxResponseBodySize : Int
  maxStreamSize : Int
  deriving DecidableEq, Repr

/-- Request phase of SizeValidationMiddleware (sizelimit.go lines 71-82):
if the request has a body and MaxRequestBodySize > 0, short-circuit with a
SizeError of kind request when the declared ContentLength exceeds the
limit, otherwise wrap the body in the counting sizeLimitedReader. -/
def sizeRequestPhase (config : SizeConfig) (req : MWRequest) :
    Except GError MWRequest :=
  match req.body with
  | some b =>
    if config.maxRequestBodySize > 0 then
      if req.contentLength > 0 ∧ req.contentLength > config.maxRequestBodySize then
        .error (.sizeError "request" req.contentLength config.maxRequestBodySize)
      else
        .ok { req with body := some (.limited b config.maxRequestBodySize "request") }
    else .ok req
  | none => .ok req

/-- Response phase of SizeValidationMiddleware (sizelimit.go lines 85-110):
propagate an inner error as (nil, err); otherwise, when the response has a
body and a response or stream limit is set, pick maxSize (response limit,
or the stream limit when the response limit is zero), short-circuit with a
SizeError of kind response when the declared ContentLength exceeds it
(closing the body), else wrap the body in the counting reader. A (nil, nil)
inner result would dereference a nil pointer in the source; it is mapped to
the corresponding runtime panic error and is not reachable in any claim. -/
def sizeResponsePhase (config : SizeConfig) (inner : MWResult) : MWResult :=
  match inner with
  | (_, some e) => (none, some e)
  | (none, none) => (none, some (.panicError "runtime error: invalid memory address or nil pointer dereference"))
  | (some resp, none) =>
    match resp.body with
    | some b =>
      if config.maxResponseBodySize > 0 ∨ config.maxStreamSize > 0 then
        let maxSize : Int :=
          if config.maxResponseBodySize = 0 then config.maxStreamSize
          else config.maxResponseBodySize
        if resp.contentLength > 0 ∧ resp.contentLength > maxSize then
          (none, some (.sizeError "response" resp.contentLength maxSize))
        else
          (some { resp with body := some (.limited b maxSize "response") }, none)
      else (some resp, none)
    | none => (some resp, none)

/-- Whether the response phase executes resp.Body.Close() (the short-circuit
branch of sizelimit.go lines 98-105). -/
def sizeResponseCloseHappens (config : SizeConfig) (resp : MWResponse) : Bool :=
  resp.body.isSome &&
    (config.maxResponseBodySize > 0 || config.maxStreamSize > 0) &&
    (resp.contentLength > 0 &&
      resp.contentLength >
        (if config.maxResponseBodySize = 0 then config.maxStreamSize
         else config.maxResponseBodySize))

/-- The round-trip wrapper of SizeValidationMiddleware. -/
def sizeValidationWrap (config : SizeConfig) (next : RoundTripFn) : RoundTripFn :=
  fun req =>
    match sizeRequestPhase config req with
    | .error e => (none, some e)
    | .ok req' => sizeResponsePhase config (next req')

/-! Section: Retry middleware (middlewares/retry.go, retry strategies) -/

/-- middlewares.RetryStrategy: ShouldRetry and NextDelay (delay in seconds). -/
structure RetryStrategy where
  shouldRetry : Nat → Option MWResponse → Option GError → Bool
  nextDelay : Nat → Option MWResponse → Option GError → Rat

/-- middlewares.RetryableStatusCodes. -/
def retryableStatusCodes : List Int := [408, 429, 500, 502, 503, 504]

/-- middlewares.ConstantDelayStrategy. -/
structure ConstantDelayStrategy where
  delay : Rat
  maxAttempts : Int
  retryableStatuses : List Int
  deriving DecidableEq, Repr

/-- ConstantDelayStrategy.ShouldRetry: no retry at or past MaxAttempts; on
a non-nil error retry exactly when errors.As finds a net.Error; otherwise
retry when the response status is among RetryableStatuses. -/
def ConstantDelayStrategy.shouldRetry (s : ConstantDelayStrategy) (attempt : Nat)
    (resp : Option MWResponse) (err : Option GError) : Bool :=
  if (attempt : Int) ≥ s.maxAttempts then false
  else
    match err with
    | some e => (GError.findNetError e).isSome
    | none =>
      match resp with
      | some r => s.retryableStatuses.contains r.statusCode
      | none => false

/-- ConstantDelayStrategy as a RetryStrategy (NextDelay is the constant). -/
def ConstantDelayStrategy.toStrategy (s : ConstantDelayStrategy) : RetryStrategy :=
  ⟨s.shouldRetry, fun _ _ _ => s.delay⟩

/-- middlewares.NewConstantDelayStrategy. -/
def NewConstantDelayStrategy (delay : Rat) (maxAttempts : Int) : ConstantDelayStrategy :=
  ⟨delay, maxAttempts, retryableStatusCodes⟩

/-- Result of the retry loop: the final (resp, err) pair of the last inner
call (or a context error), the final attempt counter, and the number of
inner round-trip invocations made. -/
structure RetryLoopOut where
  resp : Option MWResponse
  err : Option GError
  attempt : Nat
  calls : Nat
  deriving DecidableEq, Repr

/-- The retry loop of retryMiddleware.roundTrip (retry.go lines 109-149).
Successive inner invocations are modelled by indexing `next` with the
invocation count. Each iteration checks the request context, rebinds the
body to a fresh reader over the replay buffer, sets the X-Retry-Attempt
header for attempts past the first, invokes inner, exits when ShouldRetry
is false, and otherwise drains the response (no observable effect here),
increments the attempt counter and waits NextDelay. The wait races the
timer against the context; with the context error constant over the call
the cancellation arm can fire only when the loop-top check would already
have returned, so it is represented by the same outcome. `fuel` bounds the
iteration count; it is an artifact of the embedding and every theorem
supplies enough of it. -/
def retryLoop (strat : RetryStrategy) (next : Nat → MWRequest → MWResult)
    (bodyBuf : Option (List Nat)) :
    MWRequest → Nat → Nat → Nat → RetryLoopOut
  | _, attempt, calls, 0 => ⟨none, some .outOfFuel, attempt, calls⟩
  | req, attempt, calls, fuel + 1 =>
    match req.ctxErr with
    | some e => ⟨none, some e, attempt, calls⟩
    | none =>
      let req1 := { req with body := bodyBuf.map MWBody.reader }
      let req2 :=
        if attempt > 0 then
          { req1 with headers := headerSet req1.headers "X-Retry-Attempt" (toString attempt) }
        else req1
      let (resp, err) := next calls req2
      if strat.shouldRetry attempt resp err then
        retryLoop strat next bodyBuf req2 (attempt + 1) (calls + 1) fuel
      else
        ⟨resp, err, attempt, calls + 1⟩

/-- Post-loop processing (retry.go lines 151-162): wrap a timeout-classified
net.Error in TimeoutError, then wrap any remaining error in RetryError with
Attempts = attempt + 1; on success return the response. -/
def retryFinalize (attempt : Nat) (resp : Option MWResponse)
    (err : Option GError) : MWResult :=
  let err2 : Option GError :=
    match err with
    | some e =>
      match GError.findNetError e with
      | some (true, m) => some (.timeoutError (.netError true m))
      | _ => some e
    | none => none
  match err2 with
  | some e => (none, some (.retryError (attempt + 1) e))
  | none => (resp, none)

/-- retryMiddleware.roundTrip: copy the body bytes into the replay buffer,
run the loop, post-process. Returns the result together with the number of
inner invocations. -/
def retryRoundTrip (strat : RetryStrategy) (next : Nat → MWRequest → MWResult)
    (req : MWRequest) (fuel : Nat) : MWResult × Nat :=
  let bodyBuf := req.body.map MWBody.bytes
  let out := retryLoop strat next bodyBuf req 0 0 fuel
  (retryFinalize out.attempt out.resp out.err, out.calls)

/-! Section: Rate-limit middleware (the middlewares ratelimit source)

Wall-clock instants are rationals measured in seconds; time.Duration values
are rationals in seconds as well (the nanosecond truncation performed by
the time.Duration conversion is immaterial to the control flow proved
about). -/

/-- middlewares.RateLimitOptions. -/
structure RateLimitOptions where
  requestsPerSecond : Rat
  burst : Int
  waitOnLimit : Bool
  maxWaitTime : Rat
  deriving DecidableEq, Repr

/-- middlewares.DefaultRateLimitOptions. -/
def DefaultRateLimitOptions : RateLimitOptions :=
  { requestsPerSecond := 10, burst := 1, waitOnLimit := true, maxWaitTime := 5 }

/-- The mutable token-bucket state of rateLimitMiddleware. -/
structure RLState where
  tokens : Rat
  lastTimestamp : Rat
  deriving DecidableEq, Repr

/-- The option normalization performed by the RateLimitMiddleware
constructor: non-positive rate, negative burst and negative max wait fall
back to the defaults. -/
def normalizeRateLimitOptions (options : RateLimitOptions) : RateLimitOptions :=
  let options :=
    if options.requestsPerSecond ≤ 0 then
      { options with requestsPerSecond := DefaultRateLimitOptions.requestsPerSecond }
    else options
  let options :=
    if options.burst < 0 then { options with burst := DefaultRateLimitOptions.burst }
    else options
  if options.maxWaitTime < 0 then
    { options with maxWaitTime := DefaultRateLimitOptions.maxWaitTime }
  else options

/-- The initial middleware state built by RateLimitMiddleware: tokens equal
to the burst, lastTimestamp the construction instant. -/
def initRLState (options : RateLimitOptions) (now : Rat) : RLState :=
  { tokens := (options.burst : Rat), lastTimestamp := now }

/-- Token refill at the top of rateLimitMiddleware.roundTrip (elapsed time
times the rate, capped at max(burst, 1)). -/
def refillTokens (options : RateLimitOptions) (st : RLState) (now : Rat) : Rat :=
  let elapsed := now - st.lastTimestamp
  let tokens := st.tokens + elapsed * options.requestsPerSecond
  let maxTokens := if (options.burst : Rat) < 1 then 1 else (options.burst : Rat)
  if tokens > maxTokens then maxTokens else tokens

/-- The wait computed when fewer than one token is available:
(1 - tokens) / rate seconds. -/
def computedWait (options : RateLimitOptions) (st : RLState) (now : Rat) : Rat :=
  (1 - refillTokens options st now) * 1 / options.requestsPerSecond

/-- rateLimitMiddleware.roundTrip for one call. `now1` is the instant the
critical section is entered, `now2` the instant the wait timer fires (when
a wait happens). `timerWins` resolves the select race between the wait
timer and context cancellation when both are ready; with a live context the
timer arm is the only one that can fire. Returns the round-trip result, the
middleware state at the moment the lock is released (the state the inner
call runs under, when it is made), and whether the inner round trip was
invoked. -/
def rateLimitRoundTrip (options : RateLimitOptions) (st : RLState)
    (now1 : Rat) (timerWins : Bool) (now2 : Rat)
    (next : RoundTripFn) (req : MWRequest) : MWResult × RLState × Bool :=
  let tokens := refillTokens options st now1
  if tokens < 1 then
    let waitTime := computedWait options st now1
    if ¬options.waitOnLimit ∨ waitTime > options.maxWaitTime then
      ((none, some (.rateLimitExceeded options.requestsPerSecond waitTime)),
        ⟨tokens, now1⟩, false)
    else if req.ctxErr.isSome ∧ ¬timerWins then
      ((none, some (req.ctxErr.getD .ctxCanceled)), ⟨tokens, now1⟩, false)
    else
      (next req, ⟨0 - 1, now2⟩, true)
  else
    (next req, ⟨tokens - 1, now1⟩, true)

/-! Section: Request builder (core/request.go)

The builder mutates Go maps held by pointer: Clone allocates fresh maps and
copies entries, which is what makes clone mutation independent of the
source. To make that observable the embedding threads an explicit store of
header maps (map[string]string: association lists with distinct keys,
update-or-append on set) and query-parameter multimaps (url.Values: flat
lists of key-value pairs in insertion order, appended to by Add); a request
holds indices into the store (none models a nil Go map). URL parsing and
JSON encoding are host-ecosystem collaborators and enter as parameters. -/

/-- map[string]string assignment m[k] = v: update in place or append. -/
def mapSet (m : List (String × String)) (k v : String) : List (String × String) :=
  match m with
  | [] => [(k, v)]
  | (k', v') :: rest =>
    if k' = k then (k, v) :: rest else (k', v') :: mapSet rest k v

/-- map[string]string lookup. -/
def mapGet (m : List (String × String)) (k : String) : Option String :=
  match m with
  | [] => none
  | (k', v') :: rest => if k' = k then some v' else mapGet rest k

/-- The heap of maps the builder mutates through pointers. -/
structure Store where
  hmaps : List (List (String × String))
  qmaps : List (List (String × String))
  deriving DecidableEq, Repr

/-- Allocate a fresh header map. -/
def Store.allocH (s : Store) (init : List (String × String)) : Nat × Store :=
  (s.hmaps.length, { s with hmaps := s.hmaps ++ [init] })

/-- Allocate a fresh query multimap. -/
def Store.allocQ (s : Store) (init : List (String × String)) : Nat × Store :=
  (s.qmaps.length, { s with qmaps := s.qmaps ++ [init] })

/-- Read a header map through a possibly nil reference (ranging over a nil
Go map yields nothing, so nil reads as the empty map). -/
def Store.getH (s : Store) : Option Nat → List (String × String)
  | none => []
  | some i => s.hmaps.getD i []

/-- Read a query multimap through a possibly nil reference. -/
def Store.getQ (s : Store) : Option Nat → List (String × String)
  | none => []
  | some i => s.qmaps.getD i []

/-- In-place header map assignment through a reference. -/
def Store.setH (s : Store) (i : Nat) (k v : String) : Store :=
  { s with hmaps := s.hmaps.set i (mapSet (s.hmaps.getD i []) k v) }

/-- In-place url.Values.Add through a reference. -/
def Store.addQ (s : Store) (i : Nat) (k v : String) : Store :=
  { s with qmaps := s.qmaps.set i (s.qmaps.getD i [] ++ [(k, v)]) }

/-- core.Request: method, url, pointers to the header map and query
parameters, the body as re-readable bytes (the builder only ever stores a
bytes.Reader), its size, the multipart marker and the deferred build
error. -/
structure GoRequest where
  method : String
  url : String
  headersRef : Option Nat
  queryRef : Option Nat
  body : Option (List Nat)
  bodySize : Int
  isMultipart : Bool
  buildErr : Option GError
  deriving DecidableEq, Repr

/-- core.NewRequest. `parseErr` is the outcome of url.ParseRequestURI on
the given URL (none when it parses). On failure only the deferred build
error is set, leaving nil maps; on success fresh empty maps are made. -/
def NewGoRequest (parseErr : Option String) (method urlStr : String)
    (s : Store) : GoRequest × Store :=
  match parseErr with
  | some msg =>
    ({ method := "", url := "", headersRef := none, queryRef := none,
       body := none, bodySize := 0, isMultipart := false,
       buildErr := some (.simpleError ("invalid URL: " ++ msg)) }, s)
  | none =>
    let (hi, s1) := s.allocH []
    let (qi, s2) := s1.allocQ []
    ({ method := method, url := urlStr, headersRef := some hi,
       queryRef := some qi, body := none, bodySize := 0,
       isMultipart := false, buildErr := none }, s2)

/-- Request.WithHeader: allocate the map when nil, then assign. -/
def withHeader (r : GoRequest) (k v : String) (s : Store) : GoRequest × Store :=
  match r.headersRef with
  | none =>
    let (i, s1) := s.allocH []
    ({ r with headersRef := some i }, s1.setH i k v)
  | some i => (r, s.setH i k v)

/-- Request.WithQueryParam: url.Values.Add. Adding through a nil url.Values
map would fault in Go; no claim reaches that case and it is modelled as
leaving everything unchanged. -/
def withQueryParam (r : GoRequest) (k v : String) (s : Store) : GoRequest × Store :=
  match r.queryRef with
  | none => (r, s)
  | some i => (r, s.addQ i k v)

/-- Request.WithBody: methods GET and HEAD record the deferred
method-forbids-body build error; otherwise the body bytes and size are
stored. -/
def withBody (r : GoRequest) (body : List Nat) : GoRequest :=
  if r.method = "GET" ∨ r.method = "HEAD" then
    { r with buildErr := some (.simpleError
        ("http method " ++ r.method ++ " does not allow a body")) }
  else
    { r with body := some body, bodySize := (body.length : Int) }

/-- Request.WithJSONBody. `marshal` is the outcome of json.Marshal on the
given value: on failure the deferred build error is recorded, on success
the encoded bytes become the body and Content-Type is set - with no check
of the request method. -/
def withJSONBody (r : GoRequest) (marshal : Except String (List Nat))
    (s : Store) : GoRequest × Store :=
  match marshal with
  | .error msg => ({ r with buildErr := some (.simpleError msg) }, s)
  | .ok b =>
    withHeader { r with body := some b, bodySize := (b.length : Int) }
      "Content-Type" "application/json" s

/-- Request.Clone: fresh maps initialized with copies of the source
entries; the body bytes are re-read into a fresh reader and the size is
recomputed from them (zero when there is no bytes.Reader body). -/
def cloneRequest (r : GoRequest) (s : Store) : GoRequest × Store :=
  let (hi, s1) := s.allocH (s.getH r.headersRef)
  let (qi, s2) := s1.allocQ (s.getQ r.queryRef)
  ({ method := r.method, url := r.url, headersRef := some hi,
     queryRef := some qi,
     body := r.body,
     bodySize := match r.body with | some d => (d.length : Int) | none => 0,
     isMultipart := r.isMultipart, buildErr := r.buildErr }, s2)

/-- A parsed URL: the part before the query, and its own query pairs. -/
structure ParsedURL where
  base : String
  query : List (String × String)
  deriving DecidableEq, Repr

/-- Stable insertion of a pair into a key-sorted list (the pair goes before
the first entry whose key is not smaller). -/
def insertByKey (p : String × String) :
    List (String × String) → List (String × String)
  | [] => [p]
  | q :: rest => if q.1 < p.1 then q :: insertByKey p rest else p :: q :: rest

/-- url.Values.Encode up to percent-encoding: the pairs grouped by sorted
key, values of a key kept in insertion order (a stable sort by key). -/
def sortByKey : List (String × String) → List (String × String)
  | [] => []
  | p :: rest => insertByKey p (sortByKey rest)

/-- The prepared *http.Request produced by BuildHTTPRequest: method, URL
base, encoded merged query, final header map, computed ContentLength and
body bytes. -/
structure BuiltRequest where
  method : String
  urlBase : String
  rawQuery : List (String × String)
  headers : List (String × String)
  contentLength : Int
  body : Option (List Nat)
  deriving DecidableEq, Repr

/-- Request.BuildHTTPRequest. `parse` is url.Parse. Propagates the deferred
build error; rejects an empty URL; merges the query parameters after the
query already present in the URL and encodes them; sets every header of the
request map on the fresh http.Request (the same associations, since the
keys are distinct); ContentLength is -1 under chunked Transfer-Encoding,
else the stored body size when positive, else what http.NewRequest derives
from the bytes.Reader. -/
def buildHTTPRequest (parse : String → Option ParsedURL) (r : GoRequest)
    (s : Store) : Except GError BuiltRequest :=
  match r.buildErr with
  | some e => .error e
  | none =>
    if r.url = "" then
      .error (.simpleError "failed to build HTTP request: request URL is empty")
    else
      match parse r.url with
      | none => .error (.simpleError "invalid URL")
      | some u =>
        let hdrs := s.getH r.headersRef
        let baseCL : Int := match r.body with | some d => (d.length : Int) | none => 0
        .ok { method := r.method, urlBase := u.base,
              rawQuery := sortByKey (u.query ++ s.getQ r.queryRef),
              headers := hdrs,
              contentLength :=
                if mapGet hdrs "Transfer-Encoding" = some "chunked" then -1
                else if r.bodySize > 0 then r.bodySize
                else baseCL,
              body := r.body }

/-! Section: Client Do / Execute (the gofetch client source) and the async layer
(async.go) -/

instance {ε α : Type} [DecidableEq ε] [DecidableEq α] : DecidableEq (Except ε α) :=
  fun a b =>
    match a, b with
    | .ok x, .ok y =>
      if h : x = y then .isTrue (by rw [h]) else .isFalse (fun hh => h (Except.ok.inj hh))
    | .error x, .error y =>
      if h : x = y then .isTrue (by rw [h]) else .isFalse (fun hh => h (Except.error.inj hh))
    | .ok _, .error _ => .isFalse (fun hh => Except.noConfusion hh)
    | .error _, .ok _ => .isFalse (fun hh => Except.noConfusion hh)

/-- The body of a received *http.Response as the client consumes it: what a
full io.ReadAll of it yields, and what Close returns. -/
structure GoBody where
  readAll : Except GError (List Nat)
  closeErr : Option GError
  deriving DecidableEq, Repr

/-- A received *http.Response with the fields the buffering path touches or
zeroes: Status, StatusCode, Header, Body, ContentLength, the pointer to the
originating Request (an opaque identity), Proto, the TLS connection state
pointer and the Trailer map. -/
structure HttpResponseFull where
  status : String
  statusCode : Int
  header : HeaderMap
  body : GoBody
  contentLength : Int
  request : Option Nat
  proto : String
  tls : Option Nat
  trailer : HeaderMap
  deriving DecidableEq, Repr

/-- gofetch.Response: the wrapped *http.Response plus the BytesRead
counter. -/
structure ClientResponse where
  inner : HttpResponseFull
  bytesRead : Int
  deriving DecidableEq, Repr

/-- Client.Do. `buildResult` is the outcome of req.BuildHTTPRequest() and
`transport` the wrapped http.Client round trip. Without autoBuffer the raw
response is wrapped and returned. With autoBuffer the body is fully read;
a read failure surfaces as a phase-tagged response error; on success a
fresh http.Response literal is returned holding only Status, StatusCode,
Header and an in-memory reader over the drained bytes, every other field
zero-valued, and the deferred Close of the original body sets the returned
error - alongside the already-set response - when it fails. -/
def clientDo (autoBuffer : Bool) (buildResult : Except GError BuiltRequest)
    (transport : BuiltRequest → Except GError HttpResponseFull) :
    Option ClientResponse × Option GError :=
  match buildResult with
  | .error e => (none, some (.requestError "build request" e))
  | .ok httpReq =>
    match transport httpReq with
    | .error e => (none, some (.transportError "execute request" e))
    | .ok resp =>
      if autoBuffer then
        match resp.body.readAll with
        | .error e => (none, some (.responseError "read response body" e))
        | .ok data =>
          let res : ClientResponse :=
            ⟨{ status := resp.status, statusCode := resp.statusCode,
               header := resp.header,
               body := { readAll := .ok data, closeErr := none },
               contentLength := 0, request := none, proto := "",
               tls := none, trailer := [] }, 0⟩
          match resp.body.closeErr with
          | some ce => (some res, some (.responseError "close response body" ce))
          | none => (some res, none)
      else (some ⟨resp, 0⟩, none)

/-- Client.DoStream: build and send, wrap the raw response, never buffer. -/
def clientDoStream (buildResult : Except GError BuiltRequest)
    (transport : BuiltRequest → Except GError HttpResponseFull) :
    Option ClientResponse × Option GError :=
  match buildResult with
  | .error e => (none, some (.requestError "build HTTP request" e))
  | .ok httpReq =>
    match transport httpReq with
    | .error e => (none, some (.transportError "execute HTTP request" e))
    | .ok resp => (some ⟨resp, 0⟩, none)

/-- Client.Execute: per-call timeout only derives a sub-context (immaterial
here); the stream option selects DoStream, otherwise Do runs. -/
def clientExecute (stream autoBuffer : Bool)
    (buildResult : Except GError BuiltRequest)
    (transport : BuiltRequest → Except GError HttpResponseFull) :
    Option ClientResponse × Option GError :=
  if stream then clientDoStream buildResult transport
  else clientDo autoBuffer buildResult transport

/-- gofetch.AsyncResponse. -/
structure AsyncResponse where
  response : Option ClientResponse
  error : Option GError
  deriving DecidableEq, Repr

/-- How the inner execution of an async task ends: it returns a (response,
error) pair, or it panics with a recovered value. -/
inductive ExecBehavior where
  | completes (result : Option ClientResponse × Option GError)
  | panics (msg : String)
  deriving DecidableEq, Repr

/-- The channel produced by Client.ExecuteAsync and Client.DoAsync (the
panic-recovering versions, async.go lines 13-29 and 49-65), as its final
content: the list of values ever sent, and whether it was closed. The
goroutine sends the (response, error) pair of the completed execution and
closes, and its deferred recover turns a panic into a single error-typed
result before closing. -/
def executeAsyncChannel (b : ExecBehavior) : List AsyncResponse × Bool :=
  match b with
  | .completes (r, e) => ([⟨r, e⟩], true)
  | .panics m => ([⟨none, some (.panicError ("panic occurred: " ++ m))⟩], true)

/-! Section: Response streaming (core Response source: StreamChunksWithContext)

A read of the body is a pair of the bytes delivered and how the read ended:
normally, at end of stream (io.EOF), or with an error. The function spawns
each read in a goroutine and selects between the context and the read
result; when the context is already cancelled and the read has also
completed, the Go select chooses between the two ready arms
pseudo-randomly, so the choice enters as an explicit schedule: `schedule i`
tells whether the context arm wins the select of iteration i whenever the
context is cancelled (when the read has not completed at select time the
context arm is the only ready one and wins regardless). Returns the
outcome, the chunks passed to the callback in order, and the amount added
to BytesRead. -/

/-- How a single Read ends. -/
inductive RStatus where
  | ok
  | eof
  | fail (e : GError)
  deriving DecidableEq, Repr

/-- Response.StreamChunksWithContext. The buffer size only caps the bytes
of a single read and is immaterial to the step sequence. -/
def streamChunksWithContext (ctxErr : Option GError) (schedule : Nat → Bool) :
    Nat → List (List Nat × RStatus) → Option GError × List (List Nat) × Int
  | i, [] => if ctxErr.isSome ∧ schedule i then (ctxErr, [], 0) else (none, [], 0)
  | i, (data, st) :: rest =>
    if ctxErr.isSome ∧ schedule i then (ctxErr, [], 0)
    else
      let cbs := if data.length > 0 then [data] else []
      match st with
      | .eof => (none, cbs, (data.length : Int))
      | .fail e =>
        (some (.wrapErr "error while streaming chunks" e), cbs, (data.length : Int))
      | .ok =>
        let out := streamChunksWithContext ctxErr schedule (i + 1) rest
        (out.1, cbs ++ out.2.1, (data.length : Int) + out.2.2)

/-! Section: Remaining helper definitions and concrete fixtures used in the
theorems below -/

/-- The response-header adds performed by a chain of respTagMW middlewares,
outermost tag added last. -/
def addPosts (h : HeaderMap) (ts : List String) : HeaderMap :=
  ts.foldr (fun t acc => headerAdd acc "X-Mw-Post" t) h

/-- A url.Parse model accepting exactly the example URL. -/
def parseEx : String → Option ParsedURL := fun u =>
  if u = "http://example.com" then some ⟨"http://example.com", []⟩ else none

/-- A GET request built on an empty store. -/
def c4Start : GoRequest × Store := NewGoRequest none "GET" "http://example.com" ⟨[], []⟩

/-- The same GET request after WithJSONBody with successfully encoded
bytes. -/
def c4Json : GoRequest × Store := withJSONBody c4Start.1 (.ok [49, 50]) c4Start.2

/-- Rate-limit options: one request per second, burst zero, waiting enabled
with a five-second cap. -/
def rlOptsEx : RateLimitOptions := ⟨1, 0, true, 5⟩

/-- An inner round trip returning the nil pair (its value is irrelevant to
the state the middleware invokes it under). -/
def rlNextEx : RoundTripFn := fun _ => (none, none)

/-- A plain request with a live context. -/
def rlReqEx : MWRequest :=
  { method := "GET", urlStr := "http://example.com", headers := [],
    contentLength := 0, body := none, ctxErr := none }

/-- A response body whose drain succeeds and whose Close fails. -/
def c9Body : GoBody := ⟨.ok [104, 105], some (.simpleError "close failed")⟩

/-- A transport response carrying that body. -/
def c9Resp : HttpResponseFull :=
  { status := "200 OK", statusCode := 200, header := [("X-A", ["b"])],
    body := c9Body, contentLength := 2, request := some 1,
    proto := "HTTP/1.1", tls := some 1, trailer := [] }

/-- A transport returning that response for every request. -/
def c9Transport : BuiltRequest → Except GError HttpResponseFull := fun _ => .ok c9Resp

/-- A prepared request fed to that transport. -/
def c9Req : BuiltRequest :=
  { method := "GET", urlBase := "http://example.com", rawQuery := [],
    headers := [], contentLength := 0, body := none }

/-! Theorems. -/

/-- Adding a value to a header key appends it to the values of the key. -/
theorem headerValues_headerAdd (m : HeaderMap) (k v : String) :
    headerValues (headerAdd m k v) k = headerValues m k ++ [v] := by
  induction m with
  | nil => simp [headerAdd, headerValues]
  | cons p rest ih =>
    obtain ⟨k', vs⟩ := p
    by_cases h : k' = k
    · subst h
      simp [headerAdd, headerValues]
    · simp [headerAdd, headerValues, h, ih]

/-- The X-Mw-Post values after a stack of response-tag adds: the previous
values followed by the tags in reverse order (outermost added last). -/
theorem addPosts_values (h : HeaderMap) (ts : List String) :
    headerValues (addPosts h ts) "X-Mw-Post"
      = headerValues h "X-Mw-Post" ++ ts.reverse := by
  induction ts with
  | nil => simp [addPosts]
  | cons t ts ih =>
    show headerValues (headerAdd (addPosts h ts) "X-Mw-Post" t) "X-Mw-Post" = _
    rw [headerValues_headerAdd, ih]
    simp

/-- A chain of request-tag middlewares delivers to the terminal a request
whose X-Mw values are the prior ones followed by the tags in list order. -/
theorem chain_reqTag (ts : List String) : ∀ req : MWRequest,
    ChainMiddlewares obsTerminal (ts.map reqTagMW) req
      = (some { status := "200 OK", statusCode := 200,
                headers := [("X-Mw-Seen", headerValues req.headers "X-Mw" ++ ts)],
                contentLength := 0, body := none }, none) := by
  induction ts with
  | nil => intro req; simp [ChainMiddlewares, obsTerminal]
  | cons t ts ih =>
    intro req
    show ChainMiddlewares obsTerminal (ts.map reqTagMW)
        { req with headers := headerAdd req.headers "X-Mw" t } = _
    rw [ih]
    simp [headerValues_headerAdd]

/-- A chain of response-tag middlewares applied over an inner round trip
that returns a response post-processes it with the adds outermost-last. -/
theorem chain_respTag (ts : List String) : ∀ (f : RoundTripFn) (req : MWRequest)
    (r : MWResponse), f req = (some r, none) →
    ChainMiddlewares f (ts.map respTagMW) req
      = (some { r with headers := addPosts r.headers ts }, none) := by
  induction ts with
  | nil => intro f req r hf; simpa [ChainMiddlewares, addPosts] using hf
  | cons t ts ih =>
    intro f req r hf
    show (respTagMW t).wrap (ChainMiddlewares f (ts.map respTagMW)) req = _
    rw [respTagMW]
    simp only
    rw [ih f req r hf]
    rfl

/-- C5: ChainMiddlewares composes an ordered middleware list as the nested
function composition with the first middleware outermost: unfolding one
step yields m.wrap applied to the chain of the rest; consequently, through
a chain of request-tagging middlewares the terminal observes the tags
added in list order (the request-side effect of the first middleware is seen by
everything inward), and through a chain of response-tagging middlewares
the post-processing of the first middleware runs last (the observed
X-Mw-Post values are the tags in reverse list order). -/
theorem chain_order :
    (∀ (final : RoundTripFn) (m : ConfigurableMiddleware)
        (rest : List ConfigurableMiddleware),
      ChainMiddlewares final (m :: rest) = m.wrap (ChainMiddlewares final rest))
    ∧ (∀ (ts : List String) (req : MWRequest),
      ChainMiddlewares obsTerminal (ts.map reqTagMW) req
        = (some { status := "200 OK", statusCode := 200,
                  headers := [("X-Mw-Seen", headerValues req.headers "X-Mw" ++ ts)],
                  contentLength := 0, body := none }, none))
    ∧ (∀ (ts : List String) (req : MWRequest),
      ChainMiddlewares obsTerminal (ts.map respTagMW) req
        = (some { status := "200 OK", statusCode := 200,
                  headers := addPosts
                    [("X-Mw-Seen", headerValues req.headers "X-Mw")] ts,
                  contentLength := 0, body := none }, none)
      ∧ headerValues
          (addPosts [("X-Mw-Seen", headerValues req.headers "X-Mw")] ts)
          "X-Mw-Post" = ts.reverse) := by
  refine ⟨fun _ _ _ => rfl, chain_reqTag, fun ts req => ⟨?_, ?_⟩⟩
  · exact chain_respTag ts obsTerminal req _ rfl
  · rw [addPosts_values]
    simp [headerValues]

/-- C3: under a positive request limit and a request with a body, a
declared content length above the limit short-circuits with the request
SizeError carrying the declared length and the limit - for every inner
round trip, which is therefore never consulted - while a limit above the
declared content length passes the request through to the inner round trip
with the body wrapped in the counting guard. -/
theorem size_request_limit (config : SizeConfig) (req : MWRequest) (b : MWBody)
    (hb : req.body = some b) (hpos : 0 < config.maxRequestBodySize) :
    (req.contentLength > config.maxRequestBodySize →
      ∀ next : RoundTripFn, sizeValidationWrap config next req
        = (none, some (.sizeError "request" req.contentLength
            config.maxRequestBodySize)))
    ∧ (config.maxRequestBodySize > req.contentLength →
      ∀ next : RoundTripFn, sizeValidationWrap config next req
        = sizeResponsePhase config
            (next { req with
              body := some (.limited b config.maxRequestBodySize "request") })) := by
  constructor
  · intro hgt next
    have hcl : req.contentLength > 0 := lt_trans hpos hgt
    simp [sizeValidationWrap, sizeRequestPhase, hb, hpos, hgt, hcl]
  · intro hlt next
    have hngt : ¬req.contentLength > config.maxRequestBodySize := not_lt_of_gt hlt
    simp [sizeValidationWrap, sizeRequestPhase, hb, hpos, hngt]

/-- Witness for size_request_limit at concrete inputs: limit 10, declared
length 11 fails with the SizeError; declared length 9 passes through. -/
theorem size_request_limit_witness :
    (({ maxRequestBodySize := 10, maxResponseBodySize := 0,
        maxStreamSize := 0 } : SizeConfig).maxRequestBodySize > 0
      ∧ sizeValidationWrap
          { maxRequestBodySize := 10, maxResponseBodySize := 0, maxStreamSize := 0 }
          (fun _ => (none, none))
          { method := "POST", urlStr := "http://example.com", headers := [],
            contentLength := 11, body := some (.reader [0]), ctxErr := none }
        = (none, some (.sizeError "request" 11 10)))
    ∧ sizeValidationWrap
        { maxRequestBodySize := 10, maxResponseBodySize := 0, maxStreamSize := 0 }
        (fun _ => (none, none))
        { method := "POST", urlStr := "http://example.com", headers := [],
          contentLength := 9, body := some (.reader [0]), ctxErr := none }
      = (none, some (.panicError
          "runtime error: invalid memory address or nil pointer dereference")) := by
  refine ⟨⟨by decide, ?_⟩, ?_⟩
  · exact (size_request_limit _ _ (.reader [0]) rfl (by decide)).1 (by decide) _
  · rw [(size_request_limit _
      { method := "POST", urlStr := "http://example.com", headers := [],
        contentLength := 9, body := some (.reader [0]), ctxErr := none }
      (.reader [0]) rfl (by decide)).2 (by decide) (fun _ => (none, none))]
    decide

/-- C6: when the inner round trip returns a response with a body and a
response or stream limit is set, the effective limit is the response limit
when positive and otherwise the stream limit; a declared content length
above it makes the middleware drop the response (closing its body) and
return the response SizeError, a declared content length not above it
wraps the body in the counting guard; with both limits zero the response
passes through untouched. -/
theorem size_response_limit (config : SizeConfig) (next : RoundTripFn)
    (req req' : MWRequest) (resp : MWResponse) (b : MWBody)
    (hreq : sizeRequestPhase config req = .ok req')
    (hnext : next req' = (some resp, none))
    (hb : resp.body = some b)
    (hnn : 0 ≤ config.maxResponseBodySize) :
    (config.maxResponseBodySize > 0 ∨ config.maxStreamSize > 0 →
      ((resp.contentLength >
          (if config.maxResponseBodySize > 0 then config.maxResponseBodySize
           else config.maxStreamSize) →
        sizeValidationWrap config next req
          = (none, some (.sizeError "response" resp.contentLength
              (if config.maxResponseBodySize > 0 then config.maxResponseBodySize
               else config.maxStreamSize)))
        ∧ sizeResponseCloseHappens config resp = true)
      ∧ (¬resp.contentLength >
          (if config.maxResponseBodySize > 0 then config.maxResponseBodySize
           else config.maxStreamSize) →
        sizeValidationWrap config next req
          = (some { resp with
              body := some (.limited b
                (if config.maxResponseBodySize > 0 then config.maxResponseBodySize
                 else config.maxStreamSize) "response") }, none))))
    ∧ (config.maxResponseBodySize = 0 ∧ config.maxStreamSize = 0 →
        sizeValidationWrap config next req = (some resp, none)) := by
  have hwrap : sizeValidationWrap config next req
      = sizeResponsePhase config (some resp, none) := by
    simp [sizeValidationWrap, hreq, hnext]
  have hmax : (if config.maxResponseBodySize > 0 then config.maxResponseBodySize
      else config.maxStreamSize)
      = (if config.maxResponseBodySize = 0 then config.maxStreamSize
         else config.maxResponseBodySize) := by
    rcases lt_or_eq_of_le hnn with h | h
    · simp [h, ne_of_gt h]
    · simp [← h]
  constructor
  · intro hlim
    constructor
    · intro hgt
      have hmaxpos : (0 : Int) <
          (if config.maxResponseBodySize > 0 then config.maxResponseBodySize
           else config.maxStreamSize) := by
        rcases hlim with h | h
        · simp [h]
        · by_cases hz : config.maxResponseBodySize > 0 <;> simp [hz, h]
      have hcl : resp.contentLength > 0 := lt_trans hmaxpos hgt
      rw [hmax] at hgt
      constructor
      · rw [hwrap]
        simp [sizeResponsePhase, hb, hlim, hgt, hcl, hmax]
      · simp only [sizeResponseCloseHappens, hb]
        simp only [Option.isSome_some, Bool.true_and]
        rw [Bool.and_eq_true, Bool.and_eq_true]
        refine ⟨?_, by simpa using hcl, by simpa using hgt⟩
        rcases hlim with h | h
        · simp [h]
        · simp [h]
    · intro hle
      rw [hmax] at hle
      rw [hwrap]
      have hcond : (config.maxResponseBodySize > 0 ∨ config.maxStreamSize > 0) = True :=
        eq_true hlim
      simp [sizeResponsePhase, hb, hcond, hle, hmax]
  · intro ⟨h1, h2⟩
    rw [hwrap]
    simp [sizeResponsePhase, hb, h1, h2]

/-- Witness for size_response_limit at concrete inputs: response limit 5,
stream limit 0, declared response length 7: the call returns the response
SizeError and the close branch fires. -/
theorem size_response_limit_witness :
    sizeValidationWrap { maxRequestBodySize := 0, maxResponseBodySize := 5, maxStreamSize := 0 }
        (fun _ => (some { status := "200 OK", statusCode := 200, headers := [],
                          contentLength := 7, body := some (.reader [1]) }, none))
        { method := "GET", urlStr := "http://example.com", headers := [],
          contentLength := 0, body := none, ctxErr := none }
      = (none, some (.sizeError "response" 7 5))
    ∧ sizeResponseCloseHappens
        { maxRequestBodySize := 0, maxResponseBodySize := 5, maxStreamSize := 0 }
        { status := "200 OK", statusCode := 200, headers := [],
          contentLength := 7, body := some (.reader [1]) } = true := by
  have h := (size_response_limit
    { maxRequestBodySize := 0, maxResponseBodySize := 5, maxStreamSize := 0 }
    (fun _ => (some { status := "200 OK", statusCode := 200, headers := [],
                      contentLength := 7, body := some (.reader [1]) }, none))
    { method := "GET", urlStr := "http://example.com", headers := [],
      contentLength := 0, body := none, ctxErr := none }
    { method := "GET", urlStr := "http://example.com", headers := [],
      contentLength := 0, body := none, ctxErr := none }
    { status := "200 OK", statusCode := 200, headers := [],
      contentLength := 7, body := some (.reader [1]) }
    (.reader [1]) rfl rfl rfl (by decide)).1 (Or.inl (by decide))
  have h2 := h.1 (by decide)
  exact ⟨by simpa using h2.1, h2.2⟩

/-- Auxiliary to C2: under a constant-delay strategy with MaxAttempts = k,
a live context and an inner round trip failing every invocation with a
(non-timeout) net.Error, the retry loop runs the inner round trip once per
attempt 0..k and exits at attempt k with the last error, having made one
more call than it had made on entry plus the remaining attempts. -/
theorem retry_loop_exhaust (k : Nat) (delay : Rat)
    (next : Nat → MWRequest → MWResult) (errF : Nat → GError) (msgF : Nat → String)
    (hfail : ∀ i r, next i r = (none, some (errF i)))
    (hnet : ∀ i, GError.findNetError (errF i) = some (false, msgF i))
    (bodyBuf : Option (List Nat)) :
    ∀ (fuel j c : Nat) (req : MWRequest), req.ctxErr = none → j ≤ k →
      k + 1 - j ≤ fuel →
      retryLoop (NewConstantDelayStrategy delay (k : Int)).toStrategy next bodyBuf
          req j c fuel
        = ⟨none, some (errF (c + (k - j))), k, c + (k - j) + 1⟩ := by
  intro fuel
  induction fuel with
  | zero => intro j c req hctx hj hf; exact absurd hf (by omega)
  | succ fuel ih =>
    intro j c req hctx hj hf
    rw [retryLoop, hctx]
    simp only [hfail]
    by_cases hjk : j = k
    · subst hjk
      have : (NewConstantDelayStrategy delay (j : Int)).toStrategy.shouldRetry j none
          (some (errF c)) = false := by
        simp [NewConstantDelayStrategy, ConstantDelayStrategy.toStrategy,
          ConstantDelayStrategy.shouldRetry]
      rw [this]
      simp
    · have hjlt : j < k := lt_of_le_of_ne hj hjk
      have : (NewConstantDelayStrategy delay (k : Int)).toStrategy.shouldRetry j none
          (some (errF c)) = true := by
        simp only [NewConstantDelayStrategy, ConstantDelayStrategy.toStrategy,
          ConstantDelayStrategy.shouldRetry]
        have : ¬((j : Int) ≥ (k : Int)) := by exact_mod_cast not_le_of_lt hjlt
        simp [this, hnet]
      rw [this, if_pos rfl]
      rw [ih (j + 1) (c + 1) _ (by
          by_cases hj0 : j > 0 <;> simp [hj0, hctx]) (by omega) (by omega)]
      have h1 : c + 1 + (k - (j + 1)) = c + (k - j) := by omega
      rw [h1]

/-- C2: with a constant-delay strategy whose MaxAttempts is k, a live
context, and an inner round trip that fails every invocation with a
non-timeout net.Error, the retry middleware invokes the inner round trip
exactly k + 1 times and returns a RetryError whose Attempts field is k + 1
wrapping the error of the last attempt. -/
theorem retry_exhaustion (k : Nat) (delay : Rat) (req : MWRequest)
    (next : Nat → MWRequest → MWResult) (errF : Nat → GError) (msgF : Nat → String)
    (hctx : req.ctxErr = none)
    (hfail : ∀ i r, next i r = (none, some (errF i)))
    (hnet : ∀ i, GError.findNetError (errF i) = some (false, msgF i))
    (fuel : Nat) (hfuel : k + 1 ≤ fuel) :
    retryRoundTrip (NewConstantDelayStrategy delay (k : Int)).toStrategy next req fuel
      = ((none, some (.retryError (k + 1) (errF k))), k + 1) := by
  simp only [retryRoundTrip]
  rw [retry_loop_exhaust k delay next errF msgF hfail hnet _ fuel 0 0 req hctx
    (by omega) (by omega)]
  simp [retryFinalize, hnet]

/-- Witness for retry_exhaustion: MaxAttempts 2, every attempt failing with
a connection-reset net.Error: three inner invocations and
RetryError with Attempts = 3 wrapping that error. -/
theorem retry_exhaustion_witness :
    rlReqEx.ctxErr = none
    ∧ retryRoundTrip (NewConstantDelayStrategy 0 ((2 : Nat) : Int)).toStrategy
        (fun _ _ => (none, some (.netError false "conn reset"))) rlReqEx 3
      = ((none, some (.retryError 3 (.netError false "conn reset"))), 3) := by
  refine ⟨rfl, ?_⟩
  have h := retry_exhaustion 2 0 rlReqEx
    (fun _ _ => (none, some (.netError false "conn reset")))
    (fun _ => .netError false "conn reset") (fun _ => "conn reset") rfl
    (fun _ _ => rfl) (fun _ => rfl) 3 (by omega)
  simpa using h

/-- C1 (amended): when fewer than one token is available after the refill,
waiting is enabled, the computed wait does not exceed the cap and the
context is live, the rate-limit middleware waits, sets tokens to zero and
the timestamp to the post-wait instant, and then falls through to the
shared token-consumption decrement: the inner round trip is invoked and
the bucket holds -1 tokens, not 0, at the moment of the call. -/
theorem rate_limit_wait_consumes_token (options : RateLimitOptions) (st : RLState)
    (now1 now2 : Rat) (timerWins : Bool) (next : RoundTripFn) (req : MWRequest)
    (hlow : refillTokens options st now1 < 1)
    (hwol : options.waitOnLimit = true)
    (hcap : computedWait options st now1 ≤ options.maxWaitTime)
    (hctx : req.ctxErr = none) :
    rateLimitRoundTrip options st now1 timerWins now2 next req
      = (next req, ⟨-1, now2⟩, true) := by
  rw [rateLimitRoundTrip, if_pos hlow, if_neg (by
    simp [hwol, not_lt.mpr hcap]), if_neg (by simp [hctx])]
  norm_num

/-- Witness for rate_limit_wait_consumes_token: a normalized middleware
with rate 1, burst 0, waiting enabled with a 5 second cap, called on a
live-context request at the construction instant; the wait of 1 second is
within the cap and the inner call happens under -1 tokens. -/
theorem rate_limit_wait_consumes_token_witness :
    refillTokens (normalizeRateLimitOptions rlOptsEx)
        (initRLState (normalizeRateLimitOptions rlOptsEx) 0) 0 < 1
    ∧ (normalizeRateLimitOptions rlOptsEx).waitOnLimit = true
    ∧ computedWait (normalizeRateLimitOptions rlOptsEx)
        (initRLState (normalizeRateLimitOptions rlOptsEx) 0) 0
        ≤ (normalizeRateLimitOptions rlOptsEx).maxWaitTime
    ∧ rlReqEx.ctxErr = none
    ∧ rateLimitRoundTrip (normalizeRateLimitOptions rlOptsEx)
        (initRLState (normalizeRateLimitOptions rlOptsEx) 0) 0 true 1 rlNextEx rlReqEx
      = ((none, none), ⟨-1, 1⟩, true) := by
  have h1 : refillTokens (normalizeRateLimitOptions rlOptsEx)
      (initRLState (normalizeRateLimitOptions rlOptsEx) 0) 0 < 1 := by
    norm_num [refillTokens, normalizeRateLimitOptions, rlOptsEx, initRLState,
      DefaultRateLimitOptions]
  have h2 : (normalizeRateLimitOptions rlOptsEx).waitOnLimit = true := by
    norm_num [normalizeRateLimitOptions, rlOptsEx, DefaultRateLimitOptions]
  have h3 : computedWait (normalizeRateLimitOptions rlOptsEx)
      (initRLState (normalizeRateLimitOptions rlOptsEx) 0) 0
      ≤ (normalizeRateLimitOptions rlOptsEx).maxWaitTime := by
    norm_num [computedWait, refillTokens, normalizeRateLimitOptions, rlOptsEx,
      initRLState, DefaultRateLimitOptions]
  refine ⟨h1, h2, h3, rfl, ?_⟩
  rw [rate_limit_wait_consumes_token (normalizeRateLimitOptions rlOptsEx)
    (initRLState (normalizeRateLimitOptions rlOptsEx) 0) 0 1 true rlNextEx rlReqEx
    h1 h2 h3 rfl]
  rfl

/-- Counterexample to C1 as stated: at a concrete post-wait call (rate 1,
burst 0, waiting enabled, live context, timer fired one second later) the
inner round trip is invoked while the bucket holds -1 tokens, so the token
count at the moment of the inner call is negative, not 0. -/
theorem rate_limit_post_wait_tokens_negative :
    (rateLimitRoundTrip (normalizeRateLimitOptions rlOptsEx)
        (initRLState (normalizeRateLimitOptions rlOptsEx) 0) 0 true 1 rlNextEx
        rlReqEx).2.2 = true
    ∧ (rateLimitRoundTrip (normalizeRateLimitOptions rlOptsEx)
        (initRLState (normalizeRateLimitOptions rlOptsEx) 0) 0 true 1 rlNextEx
        rlReqEx).2.1.tokens = -1
    ∧ ¬(rateLimitRoundTrip (normalizeRateLimitOptions rlOptsEx)
        (initRLState (normalizeRateLimitOptions rlOptsEx) 0) 0 true 1 rlNextEx
        rlReqEx).2.1.tokens = 0 := by
  have h : rateLimitRoundTrip (normalizeRateLimitOptions rlOptsEx)
      (initRLState (normalizeRateLimitOptions rlOptsEx) 0) 0 true 1 rlNextEx rlReqEx
      = ((none, none), ⟨-1, 1⟩, true) := by
    norm_num [rateLimitRoundTrip, refillTokens, computedWait,
      normalizeRateLimitOptions, rlOptsEx, initRLState, rlNextEx, rlReqEx,
      DefaultRateLimitOptions]
  rw [h]
  norm_num

/-- C4 (amended): setting a raw byte body on a GET or HEAD request records
the deferred method-forbids-body error and makes every subsequent build
fail with it; setting a JSON body, however, performs no method check: on a
request with no prior build error it leaves the build error empty even for
GET and HEAD. -/
theorem method_forbids_body (r : GoRequest) (b bs : List Nat) (s : Store)
    (hm : r.method = "GET" ∨ r.method = "HEAD") :
    ((withBody r b).buildErr
        = some (.simpleError ("http method " ++ r.method ++ " does not allow a body"))
      ∧ ∀ (parse : String → Option ParsedURL) (s' : Store),
          buildHTTPRequest parse (withBody r b) s'
            = .error (.simpleError
                ("http method " ++ r.method ++ " does not allow a body")))
    ∧ (r.buildErr = none → ((withJSONBody r (.ok bs) s).1).buildErr = none) := by
  refine ⟨⟨?_, ?_⟩, ?_⟩
  · simp [withBody, hm]
  · intro parse s'
    simp [buildHTTPRequest, withBody, hm]
  · intro hbe
    cases href : r.headersRef <;> simp [withJSONBody, withHeader, href, hbe]

/-- Witness for method_forbids_body: a GET request freshly built on an
empty store. -/
theorem method_forbids_body_witness :
    (c4Start.1.method = "GET" ∨ c4Start.1.method = "HEAD")
    ∧ (withBody c4Start.1 [1]).buildErr
        = some (.simpleError "http method GET does not allow a body")
    ∧ buildHTTPRequest parseEx (withBody c4Start.1 [1]) c4Start.2
        = .error (.simpleError "http method GET does not allow a body")
    ∧ c4Start.1.buildErr = none
    ∧ ((withJSONBody c4Start.1 (.ok [49, 50]) c4Start.2).1).buildErr = none := by
  have h := method_forbids_body c4Start.1 [1] [49, 50] c4Start.2 (Or.inl rfl)
  exact ⟨Or.inl rfl, by simpa using h.1.1, by simpa using h.1.2 parseEx c4Start.2,
    rfl, h.2 rfl⟩

/-- Counterexample to C4 as stated: on the same GET request, WithJSONBody
with a successfully encoded value records no build error, and the build
succeeds, producing a prepared request with the JSON body and the
Content-Type header - not a method-forbids-body failure. -/
theorem json_body_on_get_builds :
    c4Start.1.method = "GET"
    ∧ (c4Json.1).buildErr = none
    ∧ buildHTTPRequest parseEx c4Json.1 c4Json.2
      = .ok { method := "GET", urlBase := "http://example.com", rawQuery := [],
              headers := [("Content-Type", "application/json")],
              contentLength := 2, body := some [49, 50] } := by
  refine ⟨rfl, rfl, by decide⟩

/-- List.getD over an append, at an index inside the first part. -/
theorem getD_append_lt {α : Type} (l l' : List α) (i : Nat) (d : α)
    (h : i < l.length) : (l ++ l').getD i d = l.getD i d := by
  induction l generalizing i with
  | nil => simp at h
  | cons a rest ih =>
    cases i with
    | zero => rfl
    | succ i => exact ih i (by simpa using h)

/-- List.getD at the index of a freshly appended element. -/
theorem getD_append_self {α : Type} (l : List α) (x d : α) :
    (l ++ [x]).getD l.length d = x := by
  induction l with
  | nil => rfl
  | cons a rest ih => simp [ih]

/-- List.getD after List.set at a different index. -/
theorem getD_set_ne {α : Type} (l : List α) (i j : Nat) (x d : α)
    (h : i ≠ j) : (l.set j x).getD i d = l.getD i d := by
  induction l generalizing i j with
  | nil => rfl
  | cons a rest ih =>
    cases j with
    | zero =>
      cases i with
      | zero => exact absurd rfl h
      | succ i => rfl
    | succ j =>
      cases i with
      | zero => rfl
      | succ i => exact ih i j (fun hh => h (by rw [hh]))

/-- BuildHTTPRequest depends only on the request fields it reads and on
the contents of the two maps it dereferences. -/
theorem buildHTTPRequest_congr (parse : String → Option ParsedURL)
    (r1 r2 : GoRequest) (s1 s2 : Store)
    (h1 : r1.buildErr = r2.buildErr) (h2 : r1.url = r2.url)
    (h3 : r1.method = r2.method) (h4 : r1.body = r2.body)
    (h5 : r1.bodySize = r2.bodySize)
    (h6 : s1.getH r1.headersRef = s2.getH r2.headersRef)
    (h7 : s1.getQ r1.queryRef = s2.getQ r2.queryRef) :
    buildHTTPRequest parse r1 s1 = buildHTTPRequest parse r2 s2 := by
  simp only [buildHTTPRequest, h1, h2, h3, h4, h5, h6, h7]

/-- C7: a clone of a request whose map references are valid and whose
stored body size matches its byte body builds to the same HTTP
representation as the source; allocating the clone leaves the build output of the source untouched; and mutating the clone afterwards - setting a
header or adding a query parameter on it - leaves the build output of the source untouched as well. -/
theorem clone_independence (parse : String → Option ParsedURL)
    (r : GoRequest) (s : Store)
    (hh : ∀ i, r.headersRef = some i → i < s.hmaps.length)
    (hq : ∀ i, r.queryRef = some i → i < s.qmaps.length)
    (hbs : r.bodySize = match r.body with
      | some d => (d.length : Int) | none => 0) :
    buildHTTPRequest parse (cloneRequest r s).1 (cloneRequest r s).2
        = buildHTTPRequest parse r s
    ∧ buildHTTPRequest parse r (cloneRequest r s).2 = buildHTTPRequest parse r s
    ∧ (∀ k v, buildHTTPRequest parse r
        (withHeader (cloneRequest r s).1 k v (cloneRequest r s).2).2
        = buildHTTPRequest parse r s)
    ∧ (∀ k v, buildHTTPRequest parse r
        (withQueryParam (cloneRequest r s).1 k v (cloneRequest r s).2).2
        = buildHTTPRequest parse r s) := by
  have hc1 : (cloneRequest r s).1 =
      { method := r.method, url := r.url, headersRef := some s.hmaps.length,
        queryRef := some s.qmaps.length, body := r.body,
        bodySize := match r.body with | some d => (d.length : Int) | none => 0,
        isMultipart := r.isMultipart, buildErr := r.buildErr } := rfl
  have hs2 : (cloneRequest r s).2 =
      ⟨s.hmaps ++ [s.getH r.headersRef], s.qmaps ++ [s.getQ r.queryRef]⟩ := rfl
  have hH : Store.getH ⟨s.hmaps ++ [s.getH r.headersRef],
      s.qmaps ++ [s.getQ r.queryRef]⟩ r.headersRef = s.getH r.headersRef := by
    cases href : r.headersRef with
    | none => rfl
    | some i => exact getD_append_lt _ _ i [] (hh i href)
  have hQ : Store.getQ ⟨s.hmaps ++ [s.getH r.headersRef],
      s.qmaps ++ [s.getQ r.queryRef]⟩ r.queryRef = s.getQ r.queryRef := by
    cases href : r.queryRef with
    | none => rfl
    | some i => exact getD_append_lt _ _ i [] (hq i href)
  rw [hc1, hs2]
  refine ⟨?_, ?_, ?_, ?_⟩
  · exact buildHTTPRequest_congr parse _ _ _ _ rfl rfl rfl rfl hbs.symm
      (getD_append_self s.hmaps _ []) (getD_append_self s.qmaps _ [])
  · exact buildHTTPRequest_congr parse _ _ _ _ rfl rfl rfl rfl rfl hH hQ
  · intro k v
    refine buildHTTPRequest_congr parse _ _ _ _ rfl rfl rfl rfl rfl ?_ ?_
    · cases href : r.headersRef with
      | none => rfl
      | some i =>
        exact (getD_set_ne _ i s.hmaps.length _ [] (Nat.ne_of_lt (hh i href))).trans
          (getD_append_lt s.hmaps _ i [] (hh i href))
    · exact hQ
  · intro k v
    refine buildHTTPRequest_congr parse _ _ _ _ rfl rfl rfl rfl rfl ?_ ?_
    · exact hH
    · cases href : r.queryRef with
      | none => rfl
      | some i =>
        exact (getD_set_ne _ i s.qmaps.length _ [] (Nat.ne_of_lt (hq i href))).trans
          (getD_append_lt s.qmaps _ i [] (hq i href))

/-- Witness for clone_independence: a concrete POST request with one
header, one query parameter and a two-byte body on a one-slot store; its
clone builds identically and a header set on the clone leaves the source
build unchanged. -/
theorem clone_independence_witness :
    buildHTTPRequest parseEx
        (cloneRequest ⟨"POST", "http://example.com", some 0, some 0, some [1, 2], 2,
          false, none⟩ ⟨[[("A", "B")]], [[("q", "1")]]⟩).1
        (cloneRequest ⟨"POST", "http://example.com", some 0, some 0, some [1, 2], 2,
          false, none⟩ ⟨[[("A", "B")]], [[("q", "1")]]⟩).2
      = buildHTTPRequest parseEx
          ⟨"POST", "http://example.com", some 0, some 0, some [1, 2], 2, false, none⟩
          ⟨[[("A", "B")]], [[("q", "1")]]⟩
    ∧ buildHTTPRequest parseEx
        ⟨"POST", "http://example.com", some 0, some 0, some [1, 2], 2, false, none⟩
        (withHeader
          (cloneRequest ⟨"POST", "http://example.com", some 0, some 0, some [1, 2], 2,
            false, none⟩ ⟨[[("A", "B")]], [[("q", "1")]]⟩).1 "X" "Y"
          (cloneRequest ⟨"POST", "http://example.com", some 0, some 0, some [1, 2], 2,
            false, none⟩ ⟨[[("A", "B")]], [[("q", "1")]]⟩).2).2
      = buildHTTPRequest parseEx
          ⟨"POST", "http://example.com", some 0, some 0, some [1, 2], 2, false, none⟩
          ⟨[[("A", "B")]], [[("q", "1")]]⟩ := by
  have h := clone_independence parseEx
    ⟨"POST", "http://example.com", some 0, some 0, some [1, 2], 2, false, none⟩
    ⟨[[("A", "B")]], [[("q", "1")]]⟩
    (by intro i hi; simp at hi ⊢; omega)
    (by intro i hi; simp at hi ⊢; omega) rfl
  exact ⟨h.1, h.2.2.1 "X" "Y"⟩

/-- C8: evaluation of StreamChunksWithContext under a pre-cancelled
context on a single-read body. When the read goroutine outruns the select
(its arm wins every race), the callback is invoked with the chunk and the
function returns success - no cancellation error - contradicting the
documented pre-cancellation behavior; when the cancellation arm wins the
first select, the function returns the context error without invoking the
callback, which is the behavior the specification and the test assert. -/
theorem stream_cancel_select_race :
    streamChunksWithContext (some .ctxCanceled) (fun _ => false) 0 [([97, 98], .eof)]
      = (none, [[97, 98]], 2)
    ∧ streamChunksWithContext (some .ctxCanceled) (fun _ => true) 0 [([97, 98], .eof)]
      = (some .ctxCanceled, [], 0) :=
  ⟨by decide, by decide⟩

/-- C9 (amended): the async execution channel always yields exactly one
result and is then closed; a panic of the inner execution is caught and
surfaced as the error of that single result; when the execution completes,
the single result carries exactly the (response, error) pair Execute
returned - and that pair has both sides populated precisely when
auto-buffering succeeded in draining the body but closing it failed, so
exactly one of response and error is populated in all other cases. -/
theorem async_single_result :
    (∀ b : ExecBehavior,
      (executeAsyncChannel b).1.length = 1 ∧ (executeAsyncChannel b).2 = true)
    ∧ (∀ m, executeAsyncChannel (.panics m)
        = ([⟨none, some (.panicError ("panic occurred: " ++ m))⟩], true))
    ∧ (∀ (stream autoBuffer : Bool) (br : Except GError BuiltRequest)
        (t : BuiltRequest → Except GError HttpResponseFull),
        executeAsyncChannel (.completes (clientExecute stream autoBuffer br t))
          = ([⟨(clientExecute stream autoBuffer br t).1,
               (clientExecute stream autoBuffer br t).2⟩], true))
    ∧ (∀ (autoBuffer : Bool) (br : Except GError BuiltRequest)
        (t : BuiltRequest → Except GError HttpResponseFull),
        ((clientDo autoBuffer br t).1.isSome ∧ (clientDo autoBuffer br t).2.isSome)
        ↔ autoBuffer = true ∧ ∃ hr resp data ce, br = .ok hr ∧ t hr = .ok resp
            ∧ resp.body.readAll = .ok data ∧ resp.body.closeErr = some ce) := by
  refine ⟨?_, fun m => rfl, fun stream autoBuffer br t => rfl, ?_⟩
  · intro b
    cases b with
    | completes p => exact ⟨rfl, rfl⟩
    | panics m => exact ⟨rfl, rfl⟩
  · intro autoBuffer br t
    cases br with
    | error e => simp [clientDo]
    | ok hr =>
      cases ht : t hr with
      | error e => simp [clientDo, ht]
      | ok resp =>
        cases autoBuffer with
        | false => simp [clientDo, ht]
        | true =>
          cases hra : resp.body.readAll with
          | error e => simp [clientDo, ht, hra]
          | ok data =>
            cases hce : resp.body.closeErr with
            | some ce => simp [clientDo, ht, hra, hce]
            | none => simp [clientDo, ht, hra, hce]

/-- Witness for async_single_result at a concrete panic: one error-typed
result tagged with the panic, channel closed. -/
theorem async_single_result_witness :
    (executeAsyncChannel (.panics "boom")).1.length = 1
    ∧ (executeAsyncChannel (.panics "boom")).2 = true
    ∧ executeAsyncChannel (.panics "boom")
      = ([⟨none, some (.panicError "panic occurred: boom")⟩], true) := by
  refine ⟨(async_single_result.1 (.panics "boom")).1,
    (async_single_result.1 (.panics "boom")).2, ?_⟩
  have h := async_single_result.2.1 "boom"
  simpa using h

/-- Counterexample to C9 as stated: with a transport whose response body
drains fine but fails to close, the (single) result on the channel has
both the response and the error populated, so exactly one of the two being
populated fails. -/
theorem async_result_both_populated :
    (executeAsyncChannel (.completes (clientExecute false true (.ok c9Req)
        c9Transport))).1.length = 1
    ∧ (executeAsyncChannel (.completes (clientExecute false true (.ok c9Req)
        c9Transport))).2 = true
    ∧ ((executeAsyncChannel (.completes (clientExecute false true (.ok c9Req)
        c9Transport))).1.headD ⟨none, none⟩).response.isSome = true
    ∧ ((executeAsyncChannel (.completes (clientExecute false true (.ok c9Req)
        c9Transport))).1.headD ⟨none, none⟩).error.isSome = true := by
  refine ⟨by decide, by decide, by decide, by decide⟩

/-- C10: with auto-buffering on, when the transport returns a response and
the drain of its body succeeds, Do returns a response that preserves
exactly the Status, StatusCode and Header of the transport response and
holds an in-memory reader over the drained bytes, while content length,
the originating request reference, the protocol, the TLS state and the
trailers are all zero-valued; the error side carries the deferred
body-close outcome. -/
theorem autobuffer_resets_fields (buildResult : Except GError BuiltRequest)
    (transport : BuiltRequest → Except GError HttpResponseFull)
    (hr : BuiltRequest) (resp : HttpResponseFull) (data : List Nat)
    (hb : buildResult = .ok hr) (ht : transport hr = .ok resp)
    (hread : resp.body.readAll = .ok data) :
    clientDo true buildResult transport
      = (some ⟨{ status := resp.status,
                 statusCode := resp.statusCode,
                 header := resp.header,
                 body := ⟨.ok data, none⟩,
                 contentLength := 0,
                 request := none,
                 proto := "",
                 tls := none,
                 trailer := [] }, 0⟩,
         match resp.body.closeErr with
         | some ce => some (.responseError "close response body" ce)
         | none => none) := by
  subst hb
  cases hce : resp.body.closeErr <;> simp [clientDo, ht, hread, hce]

/-- Witness for autobuffer_resets_fields: the concrete transport whose
response carries header X-A, a connection to a two-byte body and a failing
Close; the returned response preserves status and header, buffers the
bytes and zeroes everything else. -/
theorem autobuffer_resets_fields_witness :
    c9Transport c9Req = .ok c9Resp
    ∧ c9Resp.body.readAll = .ok [104, 105]
    ∧ clientDo true (.ok c9Req) c9Transport
      = (some ⟨{ status := "200 OK",
                 statusCode := 200,
                 header := [("X-A", ["b"])],
                 body := ⟨.ok [104, 105], none⟩,
                 contentLength := 0,
                 request := none,
                 proto := "",
                 tls := none,
                 trailer := [] }, 0⟩,
         some (.responseError "close response body" (.simpleError "close failed"))) := by
  refine ⟨rfl, rfl, ?_⟩
  have h := autobuffer_resets_fields (.ok c9Req) c9Transport c9Req c9Resp [104, 105]
    rfl rfl rfl
  simpa [c9Resp, c9Body] using h

end GoFetch
